import Mathlib

/-!
Verification of the Schema Lifecycle Manager in `app/database_init.py`.

The module exposes three operations over a SQLAlchemy engine:
  * `init_db`  — `Base.metadata.create_all(bind=engine)` plus an info log;
  * `drop_db`  — tries `Base.metadata.drop_all(bind=engine)` (the primary
    path); on any exception it logs a warning and falls back to querying
    `pg_tables` for every table whose `schemaname` is `public`, issuing
    `DROP TABLE IF EXISTS "<name>" CASCADE` for each, then committing; if
    the fallback itself raises, the error is logged and re-raised;
  * `reset_db` — `drop_db()` then `init_db()`.

Shallow embedding: the live database catalog is a list of
(schemaname, tablename) pairs; the in-process model registry
(`Base.metadata`) is another such list.  External engine behaviour —
whether each primitive engine call raises, and with which message — is an
explicit environment `Env`.  Each operation returns an `Except` value
(the normal return or the propagated exception message) together with a
trace of observable events: log records, the fallback catalog query, each
executed DROP statement, the commit, and the `create_all` invocation.
PostgreSQL DDL is transactional: statements run inside the
`engine.connect()` block take effect only at `conn.commit()`, so a
fallback that raises before the commit leaves the catalog unchanged.
-/

/-- A row of the live catalog `pg_tables`: (schemaname, tablename). -/
abbrev Table := String × String

/-- External engine behaviour: which primitive calls raise, and the
exception message each would carry. `none` means the call succeeds. -/
structure Env where
  /-- exception raised by `Base.metadata.drop_all`, if any -/
  dropAllError : Option String
  /-- exception raised by the fallback catalog SELECT, if any -/
  catalogError : Option String
  /-- exception raised by the DROP statement for a given table name -/
  dropStmtError : String → Option String
  /-- exception raised by `conn.commit()`, if any -/
  commitError : Option String
  /-- exception raised by `Base.metadata.create_all`, if any -/
  createAllError : Option String

/-- Observable events of one execution. -/
inductive Event where
  | logInfo (msg : String)
  | logWarning (msg : String)
  | logError (msg : String)
  /-- the fallback SELECT against `pg_tables` was invoked -/
  | catalogQuery
  /-- `DROP TABLE IF EXISTS "<table>" CASCADE` was executed -/
  | execDropStmt (table : String)
  /-- `conn.commit()` was invoked -/
  | commit
  /-- `Base.metadata.create_all` was invoked -/
  | createAll
deriving DecidableEq

/-- The fallback catalog query:
`SELECT tablename FROM pg_tables WHERE schemaname = ...` for the public
schema, i.e. the table names of the catalog rows whose schema is public. -/
def publicTables (db : List Table) : List String :=
  (db.filter (fun t => t.1 == "public")).map (fun t => t.2)

/-- Effect of `Base.metadata.create_all`: create every registered table
not already present (checkfirst semantics). -/
def createAllTables (db registry : List Table) : List Table :=
  db ++ registry.filter (fun t => decide (t ∉ db))

/-- The fallback drop loop: execute the DROP statement for each
discovered table name in order, stopping at the first exception.
Returns the exception (if any) and the statements actually executed. -/
def runDrops (env : Env) : List String → Option String × List Event
  | [] => (none, [])
  | n :: ns =>
    match env.dropStmtError n with
    | some e => (some e, [Event.execDropStmt n])
    | none =>
      let r := runDrops env ns
      (r.1, Event.execDropStmt n :: r.2)

/-- The warning logged when the primary path fails
(`f"drop_all failed: \x7be\x7d. Trying CASCADE method..."`). -/
def dropAllWarn (e : String) : Event :=
  Event.logWarning ("drop_all failed: " ++ e ++ ". Trying CASCADE method...")

/-- The error logged when the fallback fails
(`f"Failed to drop tables: \x7be2\x7d"`). -/
def dropFailLog (e : String) : Event :=
  Event.logError ("Failed to drop tables: " ++ e)

/-- `init_db()`: `Base.metadata.create_all(bind=engine)` then an info
log.  An exception from `create_all` propagates uncaught. -/
def init_db (env : Env) (registry db : List Table) :
    Except String (List Table) × List Event :=
  match env.createAllError with
  | some e => (Except.error e, [Event.createAll])
  | none =>
      (Except.ok (createAllTables db registry),
       [Event.createAll, Event.logInfo ("Database tables created.")])

/-- `drop_db()`: primary path `Base.metadata.drop_all` (drops exactly the
registered tables, in dependency-safe order); on exception, log a warning
and run the fallback: query `pg_tables` for the public-schema table
names, DROP ... CASCADE each, commit.  A fallback exception is logged at
error severity and re-raised.  DDL inside the connection takes effect
only at the commit. -/
def drop_db (env : Env) (registry db : List Table) :
    Except String (List Table) × List Event :=
  match env.dropAllError with
  | none =>
      (Except.ok (db.filter (fun t => decide (t ∉ registry))),
       [Event.logInfo ("Database tables dropped successfully using drop_all.")])
  | some e =>
      match env.catalogError with
      | some e2 =>
          (Except.error e2, [dropAllWarn e, Event.catalogQuery, dropFailLog e2])
      | none =>
          let names := publicTables db
          let dropsRes := runDrops env names
          match dropsRes.1 with
          | some e2 =>
              (Except.error e2,
               dropAllWarn e :: Event.catalogQuery ::
                 (dropsRes.2 ++ [dropFailLog e2]))
          | none =>
              match env.commitError with
              | some e2 =>
                  (Except.error e2,
                   dropAllWarn e :: Event.catalogQuery ::
                     (dropsRes.2 ++ [Event.commit, dropFailLog e2]))
              | none =>
                  (Except.ok (db.filter (fun t => !(t.1 == "public"))),
                   dropAllWarn e :: Event.catalogQuery ::
                     (dropsRes.2 ++
                       [Event.commit,
                        Event.logInfo ("Dropped " ++ toString names.length ++
                          " tables using CASCADE.")]))

/-- The exception with which the fallback path of `drop_db` would fail on
this state, if any: the catalog query, else the first failing DROP
statement, else the commit. -/
def fallbackError (env : Env) (db : List Table) : Option String :=
  match env.catalogError with
  | some e => some e
  | none =>
    match (runDrops env (publicTables db)).1 with
    | some e => some e
    | none => env.commitError

/-- `reset_db()`: log, `drop_db()`, `init_db()`, log.  An exception from
`drop_db` propagates before `init_db` is reached. -/
def reset_db (env : Env) (registry db : List Table) :
    Except String (List Table) × List Event :=
  let d := drop_db env registry db
  match d.1 with
  | Except.error e =>
      (Except.error e, Event.logInfo ("Resetting database...") :: d.2)
  | Except.ok db1 =>
    let i := init_db env registry db1
    match i.1 with
    | Except.error e =>
        (Except.error e,
         Event.logInfo ("Resetting database...") :: (d.2 ++ i.2))
    | Except.ok db2 =>
        (Except.ok db2,
         Event.logInfo ("Resetting database...") ::
           (d.2 ++ i.2 ++ [Event.logInfo ("Database reset complete.")]))

/-! ### Concrete states and environments used to witness the theorems -/

/-- A catalog with two registered public tables and one table in another
schema. -/
def dbW : List Table := [("public", "users"), ("public", "orders"), ("other", "keep")]

/-- The model registry matching the spec scenario: `users` and `orders`. -/
def regW : List Table := [("public", "users"), ("public", "orders")]

/-- A catalog holding a public table `extra` that is not registered. -/
def dbNotReg : List Table := [("public", "users"), ("public", "extra")]

/-- Engine behaviour: every call succeeds. -/
def envAllOk : Env := ⟨none, none, fun _ => none, none, none⟩

/-- Engine behaviour: the primary `drop_all` raises, everything else
succeeds. -/
def envPrimFail : Env := ⟨some "primary boom", none, fun _ => none, none, none⟩

/-- Engine behaviour: the primary `drop_all` raises and the fallback
catalog query raises as well. -/
def envCatFail : Env :=
  ⟨some "primary boom", some "catalog boom", fun _ => none, none, none⟩

/-! ### Helper lemmas -/

theorem runDrops_ok_events (env : Env) :
    ∀ ns : List String, (runDrops env ns).1 = none →
      (runDrops env ns).2 = ns.map Event.execDropStmt := by
  intro ns
  induction ns with
  | nil => intro _; rfl
  | cons n ns ih =>
    intro h
    cases he : env.dropStmtError n with
    | some e => simp [runDrops, he] at h
    | none =>
      simp only [runDrops, he] at h ⊢
      simp only [List.map_cons, List.cons.injEq, true_and]
      exact ih h

theorem runDrops_events_mem (env : Env) :
    ∀ ns : List String, ∀ ev ∈ (runDrops env ns).2,
      ∃ n, n ∈ ns ∧ ev = Event.execDropStmt n := by
  intro ns
  induction ns with
  | nil => intro ev h; simp [runDrops] at h
  | cons n ns ih =>
    intro ev h
    cases he : env.dropStmtError n with
    | some e =>
      simp only [runDrops, he] at h
      simp at h
      exact ⟨n, by simp, h⟩
    | none =>
      simp only [runDrops, he] at h
      simp only [List.mem_cons] at h
      rcases h with h | h
      · exact ⟨n, by simp, h⟩
      · obtain ⟨m, hm, hev⟩ := ih ev h
        exact ⟨m, by simp [hm], hev⟩

theorem mem_createAllTables (db registry : List Table) (t : Table) :
    t ∈ createAllTables db registry ↔ t ∈ db ∨ t ∈ registry := by
  simp only [createAllTables, List.mem_append, List.mem_filter,
    decide_eq_true_eq]
  tauto

theorem fallbackError_none_iff (env : Env) (db : List Table) :
    fallbackError env db = none ↔
      env.catalogError = none ∧ (runDrops env (publicTables db)).1 = none ∧
        env.commitError = none := by
  cases h2 : env.catalogError with
  | some e => simp [fallbackError, h2]
  | none =>
    cases h3 : (runDrops env (publicTables db)).1 with
    | some e => simp [fallbackError, h2, h3]
    | none => simp [fallbackError, h2, h3]

theorem init_db_ok (env : Env) (registry db db1 : List Table)
    (h : (init_db env registry db).1 = Except.ok db1) :
    env.createAllError = none ∧ db1 = createAllTables db registry := by
  cases hc : env.createAllError with
  | some e => simp [init_db, hc] at h
  | none =>
    simp only [init_db, hc] at h
    exact ⟨rfl, (Except.ok.injEq _ _ ▸ h).symm⟩

theorem drop_db_ok_sub (env : Env) (registry db db1 : List Table)
    (h : (drop_db env registry db).1 = Except.ok db1) :
    ∀ t ∈ db1, t ∈ db := by
  intro t ht
  cases h1 : env.dropAllError with
  | none =>
    simp only [drop_db, h1] at h
    rw [← (Except.ok.injEq _ _ ▸ h : _ = db1)] at ht
    exact (List.mem_filter.mp ht).1
  | some e =>
    cases h2 : env.catalogError with
    | some e2 => simp [drop_db, h1, h2] at h
    | none =>
      cases h3 : (runDrops env (publicTables db)).1 with
      | some e2 => simp [drop_db, h1, h2, h3] at h
      | none =>
        cases h4 : env.commitError with
        | some e2 => simp [drop_db, h1, h2, h3, h4] at h
        | none =>
          simp only [drop_db, h1, h2, h3, h4] at h
          rw [← (Except.ok.injEq _ _ ▸ h : _ = db1)] at ht
          exact (List.mem_filter.mp ht).1

theorem createAllTables_idem (db registry : List Table) :
    createAllTables (createAllTables db registry) registry =
      createAllTables db registry := by
  have h : registry.filter
      (fun t => decide (t ∉ createAllTables db registry)) = [] := by
    rw [List.filter_eq_nil_iff]
    intro t ht
    simp only [decide_eq_true_eq, Decidable.not_not]
    exact (mem_createAllTables db registry t).mpr (Or.inr ht)
  conv_lhs => rw [createAllTables]
  rw [h, List.append_nil]

theorem createAll_not_mem_drop (env : Env) (registry db : List Table) :
    Event.createAll ∉ (drop_db env registry db).2 := by
  cases h1 : env.dropAllError with
  | none => simp [drop_db, h1]
  | some e =>
    cases h2 : env.catalogError with
    | some e2 => simp [drop_db, h1, h2, dropAllWarn, dropFailLog]
    | none =>
      have hev : ∀ ev ∈ (runDrops env (publicTables db)).2,
          ev ≠ Event.createAll := by
        intro ev hmem
        obtain ⟨n, _, hn⟩ := runDrops_events_mem env (publicTables db) ev hmem
        simp [hn]
      cases h3 : (runDrops env (publicTables db)).1 with
      | some e2 =>
        simp only [drop_db, h1, h2, h3, List.mem_cons, List.mem_append,
          List.mem_singleton]
        push_neg
        refine ⟨by simp [dropAllWarn], by simp, ?_, by simp [dropFailLog]⟩
        intro hmem
        exact hev _ hmem rfl
      | none =>
        cases h4 : env.commitError with
        | some e2 =>
          simp only [drop_db, h1, h2, h3, h4, List.mem_cons, List.mem_append,
            List.mem_singleton]
          push_neg
          refine ⟨by simp [dropAllWarn], by simp, ?_, by simp, by simp [dropFailLog]⟩
          intro hmem
          exact hev _ hmem rfl
        | none =>
          simp only [drop_db, h1, h2, h3, h4, List.mem_cons, List.mem_append,
            List.mem_singleton]
          push_neg
          refine ⟨by simp [dropAllWarn], by simp, ?_, by simp, by simp⟩
          intro hmem
          exact hev _ hmem rfl

theorem commit_not_mem_aborted (env : Env) (registry db : List Table) (e : String)
    (h1 : env.dropAllError = some e)
    (h : env.catalogError ≠ none ∨ (runDrops env (publicTables db)).1 ≠ none) :
    Event.commit ∉ (drop_db env registry db).2 := by
  cases h2 : env.catalogError with
  | some e2 => simp [drop_db, h1, h2, dropAllWarn, dropFailLog]
  | none =>
    cases h3 : (runDrops env (publicTables db)).1 with
    | none => rw [h2, h3] at h; simp at h
    | some e2 =>
      have hev : ∀ ev ∈ (runDrops env (publicTables db)).2,
          ev ≠ Event.commit := by
        intro ev hmem
        obtain ⟨n, _, hn⟩ := runDrops_events_mem env (publicTables db) ev hmem
        simp [hn]
      simp only [drop_db, h1, h2, h3, List.mem_cons, List.mem_append,
        List.mem_singleton]
      push_neg
      refine ⟨by simp [dropAllWarn], by simp, ?_, by simp [dropFailLog]⟩
      intro hmem
      exact hev _ hmem rfl

theorem drop_db_commit_after_drops (env : Env) (registry db : List Table)
    (e : String) (h1 : env.dropAllError = some e)
    (hc : Event.commit ∈ (drop_db env registry db).2) :
    ∃ rest, (drop_db env registry db).2 =
      dropAllWarn e :: Event.catalogQuery ::
        ((publicTables db).map Event.execDropStmt ++ Event.commit :: rest) := by
  cases h2 : env.catalogError with
  | some e2 =>
    exact absurd hc (commit_not_mem_aborted env registry db e h1 (Or.inl (by simp [h2])))
  | none =>
    cases h3 : (runDrops env (publicTables db)).1 with
    | some e2 =>
      exact absurd hc (commit_not_mem_aborted env registry db e h1 (Or.inr (by simp [h3])))
    | none =>
      have hevs := runDrops_ok_events env (publicTables db) h3
      cases h4 : env.commitError with
      | some e2 =>
        refine ⟨[dropFailLog e2], ?_⟩
        simp [drop_db, h1, h2, h3, h4, hevs]
      | none =>
        refine ⟨[Event.logInfo ("Dropped " ++ toString (publicTables db).length ++
          " tables using CASCADE.")], ?_⟩
        simp [drop_db, h1, h2, h3, h4, hevs]

/-! ### Claims -/

/-- C2: the fallback catalog query is invoked in an execution of
`drop_db` if and only if the primary `drop_all` path raises: when the
primary path succeeds the fallback is never observed, and when it raises
the fallback is attempted automatically. -/
theorem drop_db_catalog_iff_primary_fails (env : Env) (registry db : List Table) :
    Event.catalogQuery ∈ (drop_db env registry db).2 ↔ env.dropAllError ≠ none := by
  cases h1 : env.dropAllError with
  | none => simp [drop_db, h1]
  | some e =>
    cases h2 : env.catalogError with
    | some e2 => simp [drop_db, h1, h2]
    | none =>
      cases h3 : (runDrops env (publicTables db)).1 with
      | some e2 => simp [drop_db, h1, h2, h3]
      | none =>
        cases h4 : env.commitError with
        | some e2 => simp [drop_db, h1, h2, h3, h4]
        | none => simp [drop_db, h1, h2, h3, h4]

/-- C3: in every execution of `drop_db` in which the primary path raises
and the fallback path also fails, the exception raised by the fallback is
logged at error severity and re-raised unchanged: the exception that
propagates to the caller is exactly the fallback exception, not the
primary one or a generic one. -/
theorem drop_db_fallback_fatal (env : Env) (registry db : List Table)
    (e e2 : String) (h1 : env.dropAllError = some e)
    (h2 : fallbackError env db = some e2) :
    (drop_db env registry db).1 = Except.error e2 ∧
      dropFailLog e2 ∈ (drop_db env registry db).2 := by
  cases h3 : env.catalogError with
  | some ec =>
    have hec : ec = e2 := by
      simp only [fallbackError, h3, Option.some.injEq] at h2
      exact h2
    subst hec
    simp [drop_db, h1, h3]
  | none =>
    cases h4 : (runDrops env (publicTables db)).1 with
    | some ed =>
      have hed : ed = e2 := by
        simp only [fallbackError, h3, h4, Option.some.injEq] at h2
        exact h2
      subst hed
      simp [drop_db, h1, h3, h4]
    | none =>
      have h5 : env.commitError = some e2 := by
        simpa only [fallbackError, h3, h4] using h2
      simp [drop_db, h1, h3, h4, h5]

/-- Witness for C3: with the primary path and the fallback catalog query
both raising, the catalog exception propagates and is logged. -/
theorem drop_db_fallback_fatal_witness :
    (drop_db envCatFail regW dbW).1 = Except.error "catalog boom" ∧
      dropFailLog "catalog boom" ∈ (drop_db envCatFail regW dbW).2 :=
  drop_db_fallback_fatal envCatFail regW dbW "primary boom" "catalog boom"
    rfl (by decide)

/-- C7: in every execution of `drop_db` in which the primary path raises
but the fallback succeeds, the primary failure is logged as a warning and
swallowed: `drop_db` returns normally and no exception reaches the
caller. -/
theorem drop_db_primary_swallowed (env : Env) (registry db : List Table)
    (e : String) (h1 : env.dropAllError = some e)
    (h2 : fallbackError env db = none) :
    (∃ db1, (drop_db env registry db).1 = Except.ok db1) ∧
      dropAllWarn e ∈ (drop_db env registry db).2 := by
  obtain ⟨h3, h4, h5⟩ := (fallbackError_none_iff env db).mp h2
  refine ⟨⟨db.filter (fun t => !(t.1 == "public")), ?_⟩, ?_⟩ <;>
    simp [drop_db, h1, h3, h4, h5]

/-- Witness for C7: primary raises, fallback succeeds, `drop_db` returns
normally with the warning logged. -/
theorem drop_db_primary_swallowed_witness :
    (∃ db1, (drop_db envPrimFail regW dbW).1 = Except.ok db1) ∧
      dropAllWarn "primary boom" ∈ (drop_db envPrimFail regW dbW).2 :=
  drop_db_primary_swallowed envPrimFail regW dbW "primary boom" rfl (by decide)

/-- C6: when the fallback path of `drop_db` runs to completion, it
queries the live catalog, issues exactly one unconditional
drop-with-cascade statement per discovered public-schema table (in
catalog order), then commits; the resulting catalog retains exactly the
non-public rows — every public table is removed whether or not it is in
the model registry (the registry does not occur in the result). -/
theorem drop_db_fallback_trace (env : Env) (registry db : List Table)
    (e : String) (h1 : env.dropAllError = some e)
    (h2 : fallbackError env db = none) :
    (drop_db env registry db).2 =
      dropAllWarn e :: Event.catalogQuery ::
        ((publicTables db).map Event.execDropStmt ++
          [Event.commit,
           Event.logInfo ("Dropped " ++ toString (publicTables db).length ++
             " tables using CASCADE.")]) ∧
    (drop_db env registry db).1 =
      Except.ok (db.filter (fun t => !(t.1 == "public"))) := by
  obtain ⟨h3, h4, h5⟩ := (fallbackError_none_iff env db).mp h2
  have hevs := runDrops_ok_events env (publicTables db) h4
  constructor <;> simp [drop_db, h1, h3, h4, h5, hevs]

/-- Witness for C6: the fallback on a concrete catalog with an
unregistered public table and a non-public table. -/
theorem drop_db_fallback_trace_witness :
    (drop_db envPrimFail regW dbW).2 =
      dropAllWarn "primary boom" :: Event.catalogQuery ::
        ((publicTables dbW).map Event.execDropStmt ++
          [Event.commit,
           Event.logInfo ("Dropped " ++ toString (publicTables dbW).length ++
             " tables using CASCADE.")]) ∧
    (drop_db envPrimFail regW dbW).1 =
      Except.ok (dbW.filter (fun t => !(t.1 == "public"))) :=
  drop_db_fallback_trace envPrimFail regW dbW "primary boom" rfl (by decide)

/-- C10: in the fallback path of `drop_db`, if the catalog query or any
individual DROP statement raises, `conn.commit()` is never executed; and
whenever the commit is executed it comes strictly after the DROP
statements for all discovered tables. -/
theorem drop_db_commit_discipline (env : Env) (registry db : List Table)
    (e : String) (h1 : env.dropAllError = some e) :
    ((env.catalogError ≠ none ∨ (runDrops env (publicTables db)).1 ≠ none) →
      Event.commit ∉ (drop_db env registry db).2) ∧
    (Event.commit ∈ (drop_db env registry db).2 →
      ∃ rest, (drop_db env registry db).2 =
        dropAllWarn e :: Event.catalogQuery ::
          ((publicTables db).map Event.execDropStmt ++ Event.commit :: rest)) :=
  ⟨fun h => commit_not_mem_aborted env registry db e h1 h,
   fun hc => drop_db_commit_after_drops env registry db e h1 hc⟩

/-- Witness for C10: no commit when the catalog query fails; commit after
all drops in a successful fallback. -/
theorem drop_db_commit_discipline_witness :
    Event.commit ∉ (drop_db envCatFail regW dbW).2 ∧
    (∃ rest, (drop_db envPrimFail regW dbW).2 =
      dropAllWarn "primary boom" :: Event.catalogQuery ::
        ((publicTables dbW).map Event.execDropStmt ++ Event.commit :: rest)) :=
  ⟨(drop_db_commit_discipline envCatFail regW dbW "primary boom" rfl).1
     (Or.inl (by decide)),
   (drop_db_commit_discipline envPrimFail regW dbW "primary boom" rfl).2
     (by decide)⟩

/-- C4: `reset_db` sequentially composes `drop_db` then `init_db`: if
`drop_db` raises then `reset_db` raises the same exception and
`create_all` is never invoked; if `drop_db` succeeds then `create_all`
is invoked exactly once afterwards. -/
theorem reset_db_composes (env : Env) (registry db : List Table) :
    (∀ e, (drop_db env registry db).1 = Except.error e →
       (reset_db env registry db).1 = Except.error e ∧
       Event.createAll ∉ (reset_db env registry db).2) ∧
    (∀ db1, (drop_db env registry db).1 = Except.ok db1 →
       ((reset_db env registry db).2.count Event.createAll) = 1) := by
  constructor
  · intro e he
    constructor
    · simp [reset_db, he]
    · simp only [reset_db, he, List.mem_cons]
      push_neg
      exact ⟨by simp, createAll_not_mem_drop env registry db⟩
  · intro db1 hok
    have hd0 : ((drop_db env registry db).2.count Event.createAll) = 0 :=
      List.count_eq_zero.mpr (createAll_not_mem_drop env registry db)
    cases hc : env.createAllError with
    | some e =>
      simp [reset_db, hok, init_db, hc, List.count_cons, List.count_append, hd0]
    | none =>
      simp [reset_db, hok, init_db, hc, List.count_cons, List.count_append, hd0]

/-- Witness for C4: a failing drop propagates its exception with no
`create_all`; a succeeding drop is followed by exactly one `create_all`. -/
theorem reset_db_composes_witness :
    ((reset_db envCatFail regW dbW).1 = Except.error "catalog boom" ∧
       Event.createAll ∉ (reset_db envCatFail regW dbW).2) ∧
    ((reset_db envAllOk regW dbW).2.count Event.createAll = 1) :=
  ⟨(reset_db_composes envCatFail regW dbW).1 "catalog boom" rfl,
   (reset_db_composes envAllOk regW dbW).2 [("other", "keep")] rfl⟩

/-- C5: `init_db` is idempotent — absent any engine failure, a second
call on the state produced by a first call returns normally (safe when
the tables already exist) and leaves the table list exactly as after the
first call. -/
theorem init_db_idempotent (env : Env) (registry db db1 : List Table)
    (h : env.createAllError = none)
    (h1 : (init_db env registry db).1 = Except.ok db1) :
    (init_db env registry db1).1 = Except.ok db1 := by
  obtain ⟨-, hdb1⟩ := init_db_ok env registry db db1 h1
  subst hdb1
  simp [init_db, h, createAllTables_idem]

/-- Witness for C5: initializing an empty catalog creates the registered
tables; initializing again returns the same table list. -/
theorem init_db_idempotent_witness :
    (init_db envAllOk regW regW).1 = Except.ok regW :=
  init_db_idempotent envAllOk regW [] regW rfl rfl

/-- Counterexample to C1 as stated: on a catalog holding a public table
`extra` that is not in the model registry, the primary path of `drop_db`
returns without raising, yet the live catalog still lists `extra` —
the table list queryable from the catalog is not empty. -/
theorem drop_db_catalog_not_empty :
    (drop_db envAllOk regW dbNotReg).1 = Except.ok [("public", "extra")] ∧
    publicTables [("public", "extra")] ≠ [] :=
  ⟨rfl, by decide⟩

/-- C1 (amended): after `drop_db` returns without raising, provided every
public-schema table of the catalog is registered in the model registry,
the set of table names queryable from the live catalog is empty —
regardless of whether the primary or the fallback path executed. -/
theorem drop_db_catalog_empty (env : Env) (registry db db1 : List Table)
    (hreg : ∀ t ∈ db, t.1 = "public" → t ∈ registry)
    (h : (drop_db env registry db).1 = Except.ok db1) :
    publicTables db1 = [] := by
  cases h1 : env.dropAllError with
  | none =>
    simp only [drop_db, h1, Except.ok.injEq] at h
    subst h
    simp only [publicTables]
    rw [List.map_eq_nil_iff, List.filter_eq_nil_iff]
    intro t ht
    simp only [beq_iff_eq]
    intro hpub
    have hmem := List.mem_filter.mp ht
    have hnr : t ∉ registry := by simpa using hmem.2
    exact hnr (hreg t hmem.1 hpub)
  | some e =>
    cases h2 : env.catalogError with
    | some e2 => simp [drop_db, h1, h2] at h
    | none =>
      cases h3 : (runDrops env (publicTables db)).1 with
      | some e2 => simp [drop_db, h1, h2, h3] at h
      | none =>
        cases h4 : env.commitError with
        | some e2 => simp [drop_db, h1, h2, h3, h4] at h
        | none =>
          simp only [drop_db, h1, h2, h3, h4, Except.ok.injEq] at h
          subst h
          simp only [publicTables]
          rw [List.map_eq_nil_iff, List.filter_eq_nil_iff]
          intro t ht
          simp only [beq_iff_eq]
          intro hpub
          have hmem := List.mem_filter.mp ht
          simp [hpub] at hmem

/-- Witness for C1 (amended): the fallback drop on a catalog whose public
tables are all registered leaves an empty public catalog. -/
theorem drop_db_catalog_empty_witness :
    publicTables [("other", "keep")] = [] :=
  drop_db_catalog_empty envPrimFail regW dbW [("other", "keep")]
    (by decide) rfl

/-- Counterexample to C8 as stated: starting from a catalog holding an
unregistered public table `extra`, `reset_db` succeeds but its table set
still contains `extra`, while a fresh `init_db` on an empty catalog
yields only the registered tables. -/
theorem reset_db_not_fresh :
    (reset_db envAllOk regW dbNotReg).1 =
      Except.ok [("public", "extra"), ("public", "users"), ("public", "orders")] ∧
    (init_db envAllOk regW []).1 =
      Except.ok [("public", "users"), ("public", "orders")] ∧
    ("public", "extra") ∈
      ([("public", "extra"), ("public", "users"), ("public", "orders")] : List Table) ∧
    ("public", "extra") ∉
      ([("public", "users"), ("public", "orders")] : List Table) :=
  ⟨rfl, rfl, by decide, by decide⟩

/-- C8 (amended): for every starting catalog all of whose tables are
registered in the model registry, a successful `reset_db` yields a table
set identical to the one produced by a single fresh `init_db` on an
empty catalog. -/
theorem reset_db_fresh (env : Env) (registry db db1 dbF : List Table)
    (hreg : ∀ t ∈ db, t ∈ registry)
    (h1 : (reset_db env registry db).1 = Except.ok db1)
    (h2 : (init_db env registry []).1 = Except.ok dbF) :
    ∀ t, t ∈ db1 ↔ t ∈ dbF := by
  obtain ⟨-, hF⟩ := init_db_ok env registry [] dbF h2
  subst hF
  cases hd : (drop_db env registry db).1 with
  | error e => simp [reset_db, hd] at h1
  | ok dbm =>
    cases hi : (init_db env registry dbm).1 with
    | error e => simp [reset_db, hd, hi] at h1
    | ok db2 =>
      have h12 : db2 = db1 := by
        simp only [reset_db, hd, hi, Except.ok.injEq] at h1
        exact h1
      subst h12
      obtain ⟨-, hdb2⟩ := init_db_ok env registry dbm db2 hi
      subst hdb2
      intro t
      have hsub : ∀ u ∈ dbm, u ∈ registry := fun u hu =>
        hreg u (drop_db_ok_sub env registry db dbm hd u hu)
      rw [mem_createAllTables, mem_createAllTables]
      simp only [List.not_mem_nil, false_or]
      constructor
      · rintro (hm | hr)
        · exact hsub t hm
        · exact hr
      · exact Or.inr

/-- Witness for C8 (amended): resetting a catalog holding only the
registered table `users` yields the same table set as a fresh
initialization. -/
theorem reset_db_fresh_witness :
    ("public", "users") ∈ regW ↔ ("public", "users") ∈ regW :=
  reset_db_fresh envAllOk regW [("public", "users")] regW regW
    (by decide) rfl rfl ("public", "users")

/-- C9: the fallback path of `drop_db` only discovers and drops
public-schema tables: every DROP statement it issues names a table from
the public-schema catalog query, and every catalog row in any other
schema is still present in the resulting catalog. -/
theorem drop_db_fallback_public_only (env : Env) (registry db : List Table)
    (e : String) (h1 : env.dropAllError = some e) :
    (∀ n, Event.execDropStmt n ∈ (drop_db env registry db).2 →
       n ∈ publicTables db) ∧
    (∀ t ∈ db, t.1 ≠ "public" →
       ∀ db1, (drop_db env registry db).1 = Except.ok db1 → t ∈ db1) := by
  have hdrops : ∀ n, Event.execDropStmt n ∈ (runDrops env (publicTables db)).2 →
      n ∈ publicTables db := by
    intro n hn
    obtain ⟨m, hm, hev⟩ := runDrops_events_mem env (publicTables db) _ hn
    injection hev with hnm
    exact hnm ▸ hm
  constructor
  · intro n hn
    cases h2 : env.catalogError with
    | some e2 =>
      simp [drop_db, h1, h2, dropAllWarn, dropFailLog] at hn
    | none =>
      cases h3 : (runDrops env (publicTables db)).1 with
      | some e2 =>
        simp only [drop_db, h1, h2, h3, List.mem_cons, List.mem_append,
          List.mem_singleton] at hn
        rcases hn with hn | hn | hn | hn
        · exact absurd hn (by simp [dropAllWarn])
        · exact absurd hn (by simp)
        · exact hdrops n hn
        · exact absurd hn (by simp [dropFailLog])
      | none =>
        cases h4 : env.commitError with
        | some e2 =>
          simp only [drop_db, h1, h2, h3, h4, List.mem_cons, List.mem_append,
            List.mem_singleton] at hn
          rcases hn with hn | hn | hn | hn | hn
          · exact absurd hn (by simp [dropAllWarn])
          · exact absurd hn (by simp)
          · exact hdrops n hn
          · exact absurd hn (by simp)
          · exact absurd hn (by simp [dropFailLog])
        | none =>
          simp only [drop_db, h1, h2, h3, h4, List.mem_cons, List.mem_append,
            List.mem_singleton] at hn
          rcases hn with hn | hn | hn | hn | hn
          · exact absurd hn (by simp [dropAllWarn])
          · exact absurd hn (by simp)
          · exact hdrops n hn
          · exact absurd hn (by simp)
          · exact absurd hn (by simp)
  · intro t ht hpub db1 hok
    cases h2 : env.catalogError with
    | some e2 => simp [drop_db, h1, h2] at hok
    | none =>
      cases h3 : (runDrops env (publicTables db)).1 with
      | some e2 => simp [drop_db, h1, h2, h3] at hok
      | none =>
        cases h4 : env.commitError with
        | some e2 => simp [drop_db, h1, h2, h3, h4] at hok
        | none =>
          simp only [drop_db, h1, h2, h3, h4, Except.ok.injEq] at hok
          subst hok
          rw [List.mem_filter]
          exact ⟨ht, by simp [hpub]⟩

/-- Witness for C9: in a concrete fallback run, the issued DROP names a
public table, and the non-public row survives in the result. -/
theorem drop_db_fallback_public_only_witness :
    "users" ∈ publicTables dbW ∧
    ("other", "keep") ∈ ([("other", "keep")] : List Table) :=
  ⟨(drop_db_fallback_public_only envPrimFail regW dbW "primary boom" rfl).1
     "users" (by decide),
   (drop_db_fallback_public_only envPrimFail regW dbW "primary boom" rfl).2
     ("other", "keep") (by decide) (by decide) [("other", "keep")] rfl⟩
